import Mathlib

set_option maxRecDepth 100000

/-!
Verification of the normalization engine of `data_normalizer.py`.

The embedding below translates the `Normalizer` base class and its
`CompanyNormalizer` / `CategoryNormalizer` / `TemplateNormalizer`
subclasses into Lean.  Python strings are modelled as `String`
(lists of characters); `str.lower`, `str.strip` and the regular
expressions used by the validators are modelled character by
character for the ASCII range that the repository's data uses.
Similarity scores are exact rationals; Python compares floats, but
every threshold comparison in the claims is far from any float
rounding boundary.  `difflib.SequenceMatcher` is modelled without
the autojunk heuristic, which only activates on strings of length
at least 200 (none occur in the repository or in the claims).
-/

namespace EmailAnalyzer

/-- ASCII whitespace as recognised by Python's regex class and split. -/
def isSpaceChar (c : Char) : Bool :=
  c.toNat = 32 || c.toNat = 9 || c.toNat = 10 || c.toNat = 13 || c.toNat = 11 || c.toNat = 12

/-- Model of Python `str.lower` on a single character (ASCII range). -/
def lowerChar (c : Char) : Char :=
  if 65 ≤ c.toNat ∧ c.toNat ≤ 90 then Char.ofNat (c.toNat + 32) else c

/-- Model of Python `str.lower` on a whole string. -/
def pyLowerStr (s : String) : String := String.mk (s.data.map lowerChar)

/-- Drop leading and trailing whitespace, Python `str.strip()`. -/
def pyStrip (l : List Char) : List Char :=
  (((l.dropWhile isSpaceChar).reverse).dropWhile isSpaceChar).reverse

/-- `str.strip()` on `String`; this is `Normalizer.clean_entity`. -/
def pyStripStr (s : String) : String := String.mk (pyStrip s.data)

/-- Substring test on character lists (used for unanchored `re.search`). -/
def hasSubstr (needle : List Char) : List Char → Bool
  | [] => needle.isEmpty
  | c :: rest => needle.isPrefixOf (c :: rest) || hasSubstr needle rest

/-- Length of the common prefix run of two character lists
(the size of a matching block continuing from aligned positions). -/
def runLenFrom : List Char → List Char → Nat
  | x :: xs, y :: ys => if x = y then runLenFrom xs ys + 1 else 0
  | _, _ => 0

/-- `difflib.SequenceMatcher.find_longest_match` over whole lists
(no junk: strings under 200 characters never trigger autojunk).
Returns `(i, j, size)`: longest matching block; ties resolved to the
smallest start in `a`, then the smallest start in `b`, exactly the
order in which difflib's scan first reaches the maximal size. -/
def bestBlock (a b : List Char) : Nat × Nat × Nat :=
  (List.range a.length).foldl (fun best i =>
    (List.range b.length).foldl (fun best j =>
      let k := runLenFrom (a.drop i) (b.drop j)
      if k > best.2.2 then (i, j, k) else best) best)
    (0, 0, 0)

/-- Total matched characters of `difflib.get_matching_blocks`:
recursively take the longest block and recurse on both sides.
`fuel` bounds the recursion depth; `a.length + 1` always suffices. -/
def totalMatchesGo : Nat → List Char → List Char → Nat
  | 0, _, _ => 0
  | fuel + 1, a, b =>
    let t := bestBlock a b
    if t.2.2 = 0 then 0
    else totalMatchesGo fuel (a.take t.1) (b.take t.2.1) + t.2.2 +
         totalMatchesGo fuel (a.drop (t.1 + t.2.2)) (b.drop (t.2.1 + t.2.2))

/-- Sum of the sizes of all matching blocks. -/
def totalMatches (a b : List Char) : Nat := totalMatchesGo (a.length + 1) a b

/-- `difflib._calculate_ratio`: `2.0 * matches / length` as an exact
rational (`mkRat` is exact division here). -/
def calculateRatio (m len : Nat) : ℚ :=
  if len = 0 then 1 else mkRat (2 * m) len

/-- `SequenceMatcher(None, a, b).ratio()`. -/
def ratioL (a b : List Char) : ℚ := calculateRatio (totalMatches a b) (a.length + b.length)

/-- `Normalizer.similarity`: lowercases both arguments, then the
SequenceMatcher ratio. -/
def similarity (a b : String) : ℚ :=
  ratioL (a.data.map lowerChar) (b.data.map lowerChar)

/-- `DEFAULT_AUTO_THRESHOLD = 0.9`. -/
def defaultAutoThreshold : ℚ := mkRat 9 10

/-- `DEFAULT_SUGGEST_THRESHOLD = 0.7`. -/
def defaultSuggestThreshold : ℚ := mkRat 7 10

/-- State of a `Normalizer` instance: the confidence thresholds fixed at
construction, plus the three mutable stores.  `mappings` and
`pendingReview` are insertion-ordered association lists (Python dicts),
`standardizedEntities` is a duplicate-free insertion-ordered list
(Python set; iteration order of a hash set is unspecified, the order
chosen here only resolves ties between equal similarity scores). -/
structure Normalizer where
  autoThreshold : ℚ
  suggestThreshold : ℚ
  mappings : List (String × String)
  standardizedEntities : List String
  pendingReview : List (String × String × ℚ)
deriving DecidableEq, Repr

/-- Python dict lookup `m[k]` / `k in m`. -/
def lookupStr {β : Type} : List (String × β) → String → Option β
  | [], _ => none
  | (k', v) :: rest, k => if k' = k then some v else lookupStr rest k

/-- Python dict assignment `m[k] = v`: update in place, append if new. -/
def dictInsert {β : Type} : List (String × β) → String → β → List (String × β)
  | [], k, v => [(k, v)]
  | (k', v') :: rest, k, v =>
    if k' = k then (k, v) :: rest else (k', v') :: dictInsert rest k v

/-- Python `set.add`. -/
def setAdd (s : List String) (x : String) : List String :=
  if x ∈ s then s else s ++ [x]

/-- `set(self.mappings.values())`: the deduplicated list of mapping values. -/
def valuesSet : List (String × String) → List String
  | [] => []
  | (_, v) :: rest =>
    let r := valuesSet rest
    if v ∈ r then r else v :: r

/-- `Normalizer.add_mapping`: record the variant, register the canonical
form, and drop any pending-review entry for the variant. -/
def addMapping (n : Normalizer) (entity std : String) : Normalizer :=
  { n with
    mappings := dictInsert n.mappings entity std,
    standardizedEntities := setAdd n.standardizedEntities std,
    pendingReview := n.pendingReview.filter (fun p => decide (p.1 ≠ entity)) }

/-- `Normalizer.add_standardized_entity`. -/
def addStandardizedEntity (n : Normalizer) (entity : String) : Normalizer :=
  { n with standardizedEntities := setAdd n.standardizedEntities entity }

/-- One scan of candidates inside `Normalizer.find_best_match`: keep the
first candidate whose score strictly beats the current best. -/
def scanCandidates (entity : String) (cands : List String) (init : String × ℚ) : String × ℚ :=
  cands.foldl (fun best c =>
    let s := similarity entity c
    if s > best.2 then (c, s) else best) init

/-- `Normalizer.find_best_match`: scan standardized entities, then the
set of mapping values, starting from `(entity, 0)`. -/
def findBestMatch (n : Normalizer) (entity : String) : String × ℚ :=
  scanCandidates entity (valuesSet n.mappings)
    (scanCandidates entity n.standardizedEntities (entity, 0))

/-- The guard on the first line of `Normalizer.normalize` and of the
validators: `not entity or entity.lower() in ('n/a', 'unknown', '')`. -/
def guardMatch (e : String) : Prop :=
  e = "" ∨ pyLowerStr e = "n/a" ∨ pyLowerStr e = "unknown" ∨ pyLowerStr e = ""

instance (e : String) : Decidable (guardMatch e) := by
  unfold guardMatch; infer_instance

/-- `Normalizer.normalize`, parameterized by the subclass's
`clean_entity` method and `get_default_entity` value (Python dynamic
dispatch).  Returns the canonical string and the updated state. -/
def baseNormalize (clean : String → String) (dflt : String)
    (n : Normalizer) (entity : String) : String × Normalizer :=
  if guardMatch entity then (dflt, n)
  else
    let cleaned := clean entity
    match lookupStr n.mappings cleaned with
    | some v => (v, n)
    | none =>
      if cleaned ∈ n.standardizedEntities then (cleaned, n)
      else
        let best := (findBestMatch n cleaned).1
        let score := (findBestMatch n cleaned).2
        if score ≥ n.autoThreshold then (best, addMapping n cleaned best)
        else if score ≥ n.suggestThreshold then
          (best, { n with pendingReview := dictInsert n.pendingReview cleaned (best, score) })
        else (cleaned, addStandardizedEntity n cleaned)

/-- `Normalizer.approve_mapping`: commit a pending suggestion (or a
caller-supplied override); a variant with no pending entry is a no-op. -/
def approveMapping (n : Normalizer) (entity : String) (std : Option String) : Normalizer :=
  match lookupStr n.pendingReview entity with
  | some sug => addMapping n entity (std.getD sug.1)
  | none => n

/-- Fresh state built by `__init__` when the mappings file is absent
(the `load_mappings` file-not-found branch): empty stores. -/
def initNormalizer (auto suggest : ℚ) : Normalizer :=
  { autoThreshold := auto, suggestThreshold := suggest,
    mappings := [], standardizedEntities := [], pendingReview := [] }

/-! ### CompanyNormalizer -/

/-- `CompanyNormalizer.known_companies`. -/
def knownCompanies : List String :=
  ["Beacon Communications, LLC",
   "Ben Hur Construction Co.",
   "BluSky Restoration Contractors, LLC",
   "Concrete & Materials Placement",
   "Doggett Concrete Construction",
   "GBI",
   "Gulf Stream Construction Co., Inc.",
   "H&M Mechanical Constructors, Inc.",
   "Haskell Lemon",
   "NP Mechanical, Inc.",
   "S.M. Hentges",
   "TSU One, Inc.",
   "TaftElectric",
   "Moisture Loc",
   "Comtel Systems Technology",
   "Great Basin Industrial",
   "Doggett Residential"]

/-- Hex digit, case-insensitively (`[0-9a-f]` under `re.IGNORECASE`). -/
def isHexChar (c : Char) : Bool :=
  c.isDigit || (97 ≤ c.toNat && c.toNat ≤ 102) || (65 ≤ c.toNat && c.toNat ≤ 70)

/-- Hyphen-separated hex segments of the given lengths (UUID shape). -/
def hexSegsOk : List Nat → List Char → Bool
  | [], _ => false
  | [k], l => decide (l.length = k) && l.all isHexChar
  | k :: ks, l =>
    decide ((l.take k).length = k) && (l.take k).all isHexChar &&
    decide ((l.drop k).head? = some '-') && hexSegsOk ks (l.drop (k + 1))

/-- The UUID pattern `^[0-9a-f]\x7b8\x7d-…` matched against the whole string. -/
def isUUID (l : List Char) : Bool := hexSegsOk [8, 4, 4, 4, 12] l

/-- `^[0-9]+$`. -/
def isAllDigits (l : List Char) : Bool := !l.isEmpty && l.all Char.isDigit

/-- `^[0-9.-]+$`. -/
def isDigitsDotsDashes (l : List Char) : Bool :=
  !l.isEmpty && l.all (fun c => c.isDigit || c = '.' || c = '-')

/-- The error-message vocabulary of the unanchored alternation pattern. -/
def companyVocab : List String :=
  ["error", "issue", "warning", "incorrect", "wrong", "missing",
   "invoice", "wizard", "system", "prediction", "vendor", "document"]

/-- `re.search` of the vocabulary alternation with `re.IGNORECASE`:
some vocabulary word occurs anywhere in the lowercased string. -/
def containsVocab (l : List Char) : Bool :=
  companyVocab.any (fun w => hasSubstr w.data (l.map lowerChar))

/-- The sentence-starter words of the anchored `^Word\s` patterns,
in source order. -/
def sentenceStarters : List String :=
  ["The", "There", "Is", "We", "Not", "This", "All", "Due", "Changed",
   "Data", "PO", "SQL", "SHOULD", "WIZARD", "GRANT", "email", "invoice",
   "sales", "the", "this"]

/-- Case-insensitive prefix match of `w` followed by one whitespace
character, the semantics of `re.search(r"^Word\s", e, re.IGNORECASE)`. -/
def ciPrefixSpace : List Char → List Char → Bool
  | [], c :: _ => isSpaceChar c
  | [], [] => false
  | x :: xs, y :: ys => decide (lowerChar x = lowerChar y) && ciPrefixSpace xs ys
  | _ :: _, [] => false

/-- A string is rejected by the sentence-starter patterns of
`CompanyNormalizer.exclude_patterns` (all compiled with `re.IGNORECASE`). -/
def starterReject (l : List Char) : Bool :=
  sentenceStarters.any (fun w => ciPrefixSpace w.data l)

/-- Some pattern of `CompanyNormalizer.exclude_patterns` matches, in
source order: UUID, numeric id, numeric with dots or dashes, HTML tag,
error vocabulary, sentence starters. -/
def companyExcludeMatches (e : String) : Bool :=
  isUUID e.data || isAllDigits e.data || isDigitsDotsDashes e.data ||
  decide (e.data.head? = some '<') || containsVocab e.data || starterReject e.data

/-- Python `str.split()` with no argument: split on whitespace runs,
dropping empty pieces. -/
def pySplitAux : List Char → List Char → List (List Char)
  | [], cur => if cur.isEmpty then [] else [cur.reverse]
  | c :: rest, cur =>
    if isSpaceChar c then
      if cur.isEmpty then pySplitAux rest [] else cur.reverse :: pySplitAux rest []
    else pySplitAux rest (c :: cur)

def pySplit (l : List Char) : List (List Char) := pySplitAux l []

/-- `CompanyNormalizer.is_invalid_company`, check for check. -/
def isInvalidCompany (e : String) : Bool :=
  if guardMatch e then true
  else if companyExcludeMatches e then true
  else if e ∈ knownCompanies then false
  else if e.length > 50 then true
  else if (pySplit e.data).length > 8 then true
  else false

/-- The concrete alternatives of the legal-suffix pattern
`\s+(Inc\.?|LLC\.?|Ltd\.?|Co\.?|Corp\.?|Corporation|Limited)$`. -/
def companySuffixes : List String :=
  ["Inc.", "Inc", "LLC.", "LLC", "Ltd.", "Ltd", "Co.", "Co",
   "Corp.", "Corp", "Corporation", "Limited"]

def isSpaceOpt : Option Char → Bool
  | some c => isSpaceChar c
  | none => false

/-- The string ends, case-insensitively, with the alternative `alt`
preceded by at least one whitespace character. -/
def suffixMatchesAt (c : List Char) (alt : String) : Bool :=
  decide (alt.data.length < c.length) &&
  decide ((c.drop (c.length - alt.data.length)).map lowerChar = alt.data.map lowerChar) &&
  isSpaceOpt (c.take (c.length - alt.data.length)).getLast?

def dropTrailingSpaces (l : List Char) : List Char :=
  (l.reverse.dropWhile isSpaceChar).reverse

/-- `CompanyNormalizer.clean_entity`: strip, then remove one trailing
legal-entity suffix together with the whitespace run before it. -/
def companyCleanList (l : List Char) : List Char :=
  let c := pyStrip l
  match companySuffixes.find? (fun alt => suffixMatchesAt c alt) with
  | some alt => dropTrailingSpaces (c.take (c.length - alt.data.length))
  | none => c

def companyCleanStr (s : String) : String := String.mk (companyCleanList s.data)

/-- `CompanyNormalizer.normalize`. -/
def companyNormalize (n : Normalizer) (e : String) : String × Normalizer :=
  if isInvalidCompany e then ("Unknown Company", n)
  else baseNormalize companyCleanStr "Unknown Company" n e

/-! ### CategoryNormalizer and TemplateNormalizer -/

/-- `CategoryNormalizer.normalize`: no validator and no cleaning
override, default entity "Other". -/
def categoryNormalize (n : Normalizer) (e : String) : String × Normalizer :=
  baseNormalize pyStripStr "Other" n e

/-- `TemplateNormalizer.valid_keywords`. -/
def templateKeywords : List String :=
  ["vendor", "prediction", "system", "performance",
   "error", "upload", "document", "integration",
   "erp", "accounting", "invoice", "submit", "unexpected"]

/-- Split a character list at the first occurrence of `c`. -/
def breakAtFirst (c : Char) : List Char → Option (List Char × List Char)
  | [] => none
  | x :: xs =>
    if x = c then some ([], xs)
    else (breakAtFirst c xs).map (fun p => (x :: p.1, p.2))

/-- Split at the last occurrence of `c`. -/
def breakAtLast (c : Char) (l : List Char) : Option (List Char × List Char) :=
  (breakAtFirst c l.reverse).map (fun p => (p.2.reverse, p.1.reverse))

def emailLocalChar (c : Char) : Bool :=
  c.isAlpha || c.isDigit || c = '.' || c = '_' || c = '%' || c = '+' || c = '-'

def emailDomainChar (c : Char) : Bool :=
  c.isAlpha || c.isDigit || c = '.' || c = '-'

/-- The anchored e-mail pattern
`^[a-zA-Z0-9._%+-]+@[a-zA-Z0-9.-]+\.[a-zA-Z]\x7b2,\x7d$` as a whole-string
match: local part, one `@`, domain, and a final all-alphabetic label of
length at least two after the last dot. -/
def isEmailAddr (l : List Char) : Bool :=
  match breakAtFirst '@' l with
  | none => false
  | some (loc, rest) =>
    !loc.isEmpty && loc.all emailLocalChar &&
    match breakAtLast '.' rest with
    | none => false
    | some (dom, tld) =>
      !dom.isEmpty && dom.all emailDomainChar &&
      decide (2 ≤ tld.length) && tld.all Char.isAlpha

/-- `TemplateNormalizer.is_invalid_template`. -/
def isInvalidTemplate (e : String) : Bool :=
  if guardMatch e then true
  else if isUUID e.data || isEmailAddr e.data then true
  else !(templateKeywords.any (fun w => hasSubstr w.data (e.data.map lowerChar)))

/-- `TemplateNormalizer.normalize`. -/
def templateNormalize (n : Normalizer) (e : String) : String × Normalizer :=
  if isInvalidTemplate e then ("Other", n)
  else baseNormalize pyStripStr "Other" n e

/-! ### Durable-storage model of `save_mappings`

`save_mappings` opens the target path with mode `'w'` — which truncates
the file in place — and then `json.dump`s the serialized state, with the
whole body wrapped in `try/except` that only prints.  The model makes
the durable file content explicit: `SaveOutcome` says how far the write
got before an exception (if any) was raised. -/

/-- Stand-in for the `json.dump` serialization of
`\x7b'mappings': …, 'standardized_entities': …\x7d`; the claims depend only
on the content being a deterministic function of the in-memory state. -/
def serializeMappings (n : Normalizer) : String :=
  "mappings=" ++ String.intercalate "," (n.mappings.map (fun p => p.1 ++ ":" ++ p.2)) ++
  ";standardized_entities=" ++ String.intercalate "," n.standardizedEntities

/-- How a call to `save_mappings` interacts with the file system. -/
inductive SaveOutcome where
  /-- open succeeded and `json.dump` wrote everything. -/
  | ok
  /-- `open(..., 'w')` itself raised (permissions): file untouched. -/
  | failOpen
  /-- open succeeded (truncating the file) but an exception was raised
  after only `k` characters of the serialization were written. -/
  | failAfter (k : Nat)
deriving DecidableEq, Repr

/-- `Normalizer.save_mappings`: returns the in-memory state after the
call, the durable file content after the call, and whether an exception
escaped to the caller (the `except` clause always swallows it). -/
def saveMappings (n : Normalizer) (durable : Option String) :
    SaveOutcome → Normalizer × Option String × Bool
  | .ok => (n, some (serializeMappings n), false)
  | .failOpen => (n, durable, false)
  | .failAfter k => (n, some ((serializeMappings n).take k), false)

/-! ### Sequences of public operations -/

/-- One public mutating call on a normalizer. -/
inductive NormOp where
  | normalize (clean : String → String) (dflt : String) (entity : String)
  | normalizeCompany (entity : String)
  | normalizeTemplate (entity : String)
  | approve (entity : String) (std : Option String)
  | addMap (entity std : String)
  | addStd (entity : String)

def applyOp (n : Normalizer) : NormOp → Normalizer
  | .normalize clean dflt e => (baseNormalize clean dflt n e).2
  | .normalizeCompany e => (companyNormalize n e).2
  | .normalizeTemplate e => (templateNormalize n e).2
  | .approve e s => approveMapping n e s
  | .addMap e s => addMapping n e s
  | .addStd e => addStandardizedEntity n e

def runOps (n : Normalizer) : List NormOp → Normalizer
  | [] => n
  | o :: os => runOps (applyOp n o) os

/-! ### Spec-side definition for the sentence-starter refinement -/

/-- Modelled from the spec: the spec describes the sentence-starter
rejection as a "case-sensitive-per-entry prefix match followed by
whitespace"; this is that reading, for comparison with `starterReject`. -/
def csPrefixSpace : List Char → List Char → Bool
  | [], c :: _ => isSpaceChar c
  | [], [] => false
  | x :: xs, y :: ys => decide (x = y) && csPrefixSpace xs ys
  | _ :: _, [] => false

/-- Modelled from the spec: starter rejection under the spec's
case-sensitive-per-entry reading. -/
def starterRejectSpec (l : List Char) : Bool :=
  sentenceStarters.any (fun w => csPrefixSpace w.data l)

/-! ### Helper lemmas -/

theorem toNat_ofNat_add32 (n : Nat) (h1 : 65 ≤ n) (h2 : n ≤ 90) :
    (Char.ofNat (n + 32)).toNat = n + 32 := by
  interval_cases n <;> decide

theorem lowerChar_lowerChar (c : Char) : lowerChar (lowerChar c) = lowerChar c := by
  unfold lowerChar
  by_cases h : 65 ≤ c.toNat ∧ c.toNat ≤ 90
  · rw [if_pos h]
    have hn := toNat_ofNat_add32 c.toNat h.1 h.2
    rw [if_neg]
    intro hc
    rw [hn] at hc
    omega
  · rw [if_neg h, if_neg h]

theorem isSpaceChar_eq_false_of_ge (c : Char) (h : 33 ≤ c.toNat) :
    isSpaceChar c = false := by
  simp only [isSpaceChar, Bool.or_eq_false_iff, decide_eq_false_iff_not]
  omega

theorem isSpaceChar_lowerChar (c : Char) :
    isSpaceChar (lowerChar c) = isSpaceChar c := by
  unfold lowerChar
  by_cases h : 65 ≤ c.toNat ∧ c.toNat ≤ 90
  · rw [if_pos h]
    rw [isSpaceChar_eq_false_of_ge _ (by rw [toNat_ofNat_add32 c.toNat h.1 h.2]; omega)]
    rw [isSpaceChar_eq_false_of_ge _ (by omega)]
  · rw [if_neg h]

theorem ciPrefixSpace_map_lower (w : List Char) :
    ∀ l : List Char, ciPrefixSpace w (l.map lowerChar) = ciPrefixSpace w l := by
  induction w with
  | nil =>
    intro l
    cases l with
    | nil => rfl
    | cons c t => simp [ciPrefixSpace, isSpaceChar_lowerChar]
  | cons x xs ih =>
    intro l
    cases l with
    | nil => rfl
    | cons y ys => simp [ciPrefixSpace, ih, lowerChar_lowerChar]

theorem lookup_dictInsert_self {β : Type} (m : List (String × β)) (k : String) (v : β) :
    lookupStr (dictInsert m k v) k = some v := by
  induction m with
  | nil => simp [dictInsert, lookupStr]
  | cons p rest ih =>
    by_cases h : p.1 = k
    · cases p; simp_all [dictInsert, lookupStr]
    · cases p; simp_all [dictInsert, lookupStr]

theorem mem_dictInsert {β : Type} (m : List (String × β)) (k : String) (v : β) :
    ∀ p ∈ dictInsert m k v, p = (k, v) ∨ p ∈ m := by
  induction m with
  | nil => simp [dictInsert]
  | cons q rest ih =>
    intro p hp
    cases q with
    | mk k' v' =>
      by_cases h : k' = k
      · rw [dictInsert, if_pos h] at hp
        rcases List.mem_cons.mp hp with hp | hp
        · exact Or.inl hp
        · exact Or.inr (List.mem_cons_of_mem _ hp)
      · rw [dictInsert, if_neg h] at hp
        rcases List.mem_cons.mp hp with hp | hp
        · exact Or.inr (by simp [hp])
        · rcases ih p hp with h' | h'
          · exact Or.inl h'
          · exact Or.inr (List.mem_cons_of_mem _ h')

theorem keys_subset_dictInsert {β : Type} (m : List (String × β)) (k : String) (v : β) :
    (m.map Prod.fst) ⊆ ((dictInsert m k v).map Prod.fst) := by
  induction m with
  | nil => simp [dictInsert]
  | cons p rest ih =>
    cases p with
    | mk k' v' =>
      by_cases h : k' = k
      · rw [dictInsert, if_pos h]
        simp [h]
      · rw [dictInsert, if_neg h]
        simpa using List.cons_subset_cons k' ih

theorem subset_setAdd (s : List String) (x : String) : s ⊆ setAdd s x := by
  unfold setAdd
  split
  · exact fun a ha => ha
  · exact List.subset_append_left s [x]

theorem mem_setAdd_self (s : List String) (x : String) : x ∈ setAdd s x := by
  unfold setAdd
  split
  · assumption
  · simp

theorem mem_valuesSet (m : List (String × String)) :
    ∀ x ∈ valuesSet m, x ∈ m.map Prod.snd := by
  induction m with
  | nil => simp [valuesSet]
  | cons p rest ih =>
    intro x hx
    cases p with
    | mk k v =>
      simp only [valuesSet] at hx
      split at hx
      case isTrue hm => exact List.mem_cons_of_mem _ (by simpa using ih x hx)
      case isFalse hm =>
        rcases List.mem_cons.mp hx with hx' | hx'
        · simp [hx']
        · exact List.mem_cons_of_mem _ (by simpa using ih x hx')

theorem lookup_filter_ne {β : Type} (m : List (String × β)) (k : String) :
    lookupStr (m.filter (fun p => decide (p.1 ≠ k))) k = none := by
  induction m with
  | nil => rfl
  | cons p rest ih =>
    rw [List.filter_cons]
    by_cases h : p.1 = k
    · rw [if_neg (by simp [h])]
      exact ih
    · rw [if_pos (by simp [h])]
      rw [lookupStr, if_neg h]
      exact ih

theorem scanCandidates_of_le (e : String) (cands : List String) (m : String) (q : ℚ)
    (h : ∀ c ∈ cands, similarity e c ≤ q) :
    scanCandidates e cands (m, q) = (m, q) := by
  induction cands with
  | nil => rfl
  | cons c cs ih =>
    have hc : ¬ (similarity e c > q) := not_lt.mpr (h c (List.mem_cons_self c cs))
    have step : scanCandidates e (c :: cs) (m, q) = scanCandidates e cs (m, q) := by
      unfold scanCandidates
      rw [List.foldl_cons]
      congr 1
      show (if similarity e c > (m, q).2 then (c, similarity e c) else (m, q)) = (m, q)
      rw [if_neg hc]
    rw [step]
    exact ih (fun x hx => h x (List.mem_cons_of_mem _ hx))

theorem scanCandidates_singleton_pos (e E : String) (h : 0 < similarity e E) :
    scanCandidates e [E] (e, 0) = (E, similarity e E) := by
  unfold scanCandidates
  rw [List.foldl_cons, List.foldl_nil]
  show (if similarity e E > (e, (0 : ℚ)).2 then (E, similarity e E) else (e, 0)) = _
  rw [if_pos h]

theorem findBestMatch_single (n : Normalizer) (e E : String)
    (hstd : n.standardizedEntities = [E])
    (hvals : ∀ v ∈ n.mappings.map Prod.snd, v = E)
    (hpos : 0 < similarity e E) :
    findBestMatch n e = (E, similarity e E) := by
  unfold findBestMatch
  rw [hstd, scanCandidates_singleton_pos e E hpos]
  exact scanCandidates_of_le e _ E (similarity e E)
    (fun c hc => le_of_eq (by rw [hvals c (mem_valuesSet n.mappings c hc)]))

/-- The fuzzy-matching tail of `normalize`, reached when the guard,
the exact-mapping lookup and the standardized-membership test all fail. -/
theorem baseNormalize_fuzzy (clean : String → String) (dflt : String)
    (n : Normalizer) (s : String)
    (hg : ¬ guardMatch s) (hnomap : lookupStr n.mappings (clean s) = none)
    (hnostd : clean s ∉ n.standardizedEntities) :
    baseNormalize clean dflt n s =
      (if (findBestMatch n (clean s)).2 ≥ n.autoThreshold then
        ((findBestMatch n (clean s)).1,
         addMapping n (clean s) (findBestMatch n (clean s)).1)
       else if (findBestMatch n (clean s)).2 ≥ n.suggestThreshold then
        ((findBestMatch n (clean s)).1,
         { n with pendingReview := dictInsert n.pendingReview (clean s) (findBestMatch n (clean s)) })
       else (clean s, addStandardizedEntity n (clean s))) := by
  unfold baseNormalize
  rw [if_neg hg]
  simp only [hnomap]
  rw [if_neg hnostd]

/-- Every branch of `normalize` leaves the state alone, adds a mapping,
touches only the pending-review dict, or adds a standardized entity. -/
theorem baseNormalize_state_cases (clean : String → String) (dflt : String)
    (n : Normalizer) (e : String) :
    (baseNormalize clean dflt n e).2 = n ∨
    (∃ a b, (baseNormalize clean dflt n e).2 = addMapping n a b) ∨
    (∃ a bs, (baseNormalize clean dflt n e).2 =
      { n with pendingReview := dictInsert n.pendingReview a bs }) ∨
    (∃ a, (baseNormalize clean dflt n e).2 = addStandardizedEntity n a) := by
  by_cases hg : guardMatch e
  · left
    simp [baseNormalize, hg]
  · cases hm : lookupStr n.mappings (clean e) with
    | some v =>
      left
      simp [baseNormalize, hg, hm]
    | none =>
      by_cases hs : clean e ∈ n.standardizedEntities
      · left
        simp [baseNormalize, hg, hm, hs]
      · rw [baseNormalize_fuzzy clean dflt n e hg hm hs]
        by_cases h1 : (findBestMatch n (clean e)).2 ≥ n.autoThreshold
        · refine Or.inr (Or.inl ⟨clean e, (findBestMatch n (clean e)).1, ?_⟩)
          rw [if_pos h1]
        · by_cases h2 : (findBestMatch n (clean e)).2 ≥ n.suggestThreshold
          · refine Or.inr (Or.inr (Or.inl ⟨clean e, findBestMatch n (clean e), ?_⟩))
            rw [if_neg h1, if_pos h2]
          · refine Or.inr (Or.inr (Or.inr ⟨clean e, ?_⟩))
            rw [if_neg h1, if_neg h2]

theorem applyOp_state_cases (n : Normalizer) (o : NormOp) :
    applyOp n o = n ∨
    (∃ a b, applyOp n o = addMapping n a b) ∨
    (∃ a bs, applyOp n o = { n with pendingReview := dictInsert n.pendingReview a bs }) ∨
    (∃ a, applyOp n o = addStandardizedEntity n a) := by
  cases o with
  | normalize clean dflt e => exact baseNormalize_state_cases clean dflt n e
  | normalizeCompany e =>
    simp only [applyOp, companyNormalize]
    split
    · exact Or.inl rfl
    · exact baseNormalize_state_cases _ _ n e
  | normalizeTemplate e =>
    simp only [applyOp, templateNormalize]
    split
    · exact Or.inl rfl
    · exact baseNormalize_state_cases _ _ n e
  | approve e s =>
    simp only [applyOp, approveMapping]
    split
    · exact Or.inr (Or.inl ⟨_, _, rfl⟩)
    · exact Or.inl rfl
  | addMap e s => exact Or.inr (Or.inl ⟨_, _, rfl⟩)
  | addStd e => exact Or.inr (Or.inr (Or.inr ⟨_, rfl⟩))

theorem grows_of_cases (n m : Normalizer)
    (h : m = n ∨ (∃ a b, m = addMapping n a b) ∨
      (∃ a bs, m = { n with pendingReview := dictInsert n.pendingReview a bs }) ∨
      (∃ a, m = addStandardizedEntity n a)) :
    (n.mappings.map Prod.fst) ⊆ (m.mappings.map Prod.fst) ∧
    n.standardizedEntities ⊆ m.standardizedEntities := by
  rcases h with h | ⟨a, b, h⟩ | ⟨a, bs, h⟩ | ⟨a, h⟩ <;> subst h
  · exact ⟨fun x hx => hx, fun x hx => hx⟩
  · exact ⟨keys_subset_dictInsert _ _ _, subset_setAdd _ _⟩
  · exact ⟨fun x hx => hx, fun x hx => hx⟩
  · exact ⟨fun x hx => hx, subset_setAdd _ _⟩

theorem mapInv_of_cases (n m : Normalizer)
    (hInv : ∀ p ∈ n.mappings, p.2 ∈ n.standardizedEntities)
    (h : m = n ∨ (∃ a b, m = addMapping n a b) ∨
      (∃ a bs, m = { n with pendingReview := dictInsert n.pendingReview a bs }) ∨
      (∃ a, m = addStandardizedEntity n a)) :
    ∀ p ∈ m.mappings, p.2 ∈ m.standardizedEntities := by
  rcases h with h | ⟨a, b, h⟩ | ⟨a, bs, h⟩ | ⟨a, h⟩ <;> subst h
  · exact hInv
  · intro p hp
    rcases mem_dictInsert _ _ _ p hp with h' | h'
    · rw [h']
      exact mem_setAdd_self _ _
    · exact subset_setAdd _ _ (hInv p h')
  · exact hInv
  · intro p hp
    exact subset_setAdd _ _ (hInv p hp)

/-! ### Claim theorems -/

/-- C9: across every sequence of public operations (normalize in all
three classes, approve_mapping, add_mapping, add_standardized_entity)
the mapping keys and the standardized-entity set only grow; nothing is
ever removed from them. -/
theorem public_ops_monotone (n : Normalizer) (ops : List NormOp) :
    (n.mappings.map Prod.fst) ⊆ ((runOps n ops).mappings.map Prod.fst) ∧
    n.standardizedEntities ⊆ (runOps n ops).standardizedEntities := by
  induction ops generalizing n with
  | nil => exact ⟨fun x hx => hx, fun x hx => hx⟩
  | cons o os ih =>
    have h1 := grows_of_cases n (applyOp n o) (applyOp_state_cases n o)
    have h2 := ih (applyOp n o)
    exact ⟨fun x hx => h2.1 (h1.1 hx), fun x hx => h2.2 (h1.2 hx)⟩

/-- C6: in every state reachable from a fresh normalizer by the public
operations, every value of the mapping table is a member of the
standardized-entity set. -/
theorem mapping_values_in_standardized (auto sug : ℚ) (ops : List NormOp) (k v : String)
    (h : (k, v) ∈ (runOps (initNormalizer auto sug) ops).mappings) :
    v ∈ (runOps (initNormalizer auto sug) ops).standardizedEntities := by
  have main : ∀ (l : List NormOp) (m : Normalizer),
      (∀ p ∈ m.mappings, p.2 ∈ m.standardizedEntities) →
      ∀ p ∈ (runOps m l).mappings, p.2 ∈ (runOps m l).standardizedEntities := by
    intro l
    induction l with
    | nil => exact fun m hm => hm
    | cons o os ih =>
      intro m hm
      exact ih (applyOp m o) (mapInv_of_cases m (applyOp m o) hm (applyOp_state_cases m o))
  exact main ops (initNormalizer auto sug) (by simp [initNormalizer]) (k, v) h

theorem mapping_values_in_standardized_witness :
    ("a", "b") ∈ (runOps (initNormalizer defaultAutoThreshold defaultSuggestThreshold) [NormOp.addMap "a" "b"]).mappings ∧
    "b" ∈ (runOps (initNormalizer defaultAutoThreshold defaultSuggestThreshold) [NormOp.addMap "a" "b"]).standardizedEntities :=
  ⟨by decide, mapping_values_in_standardized defaultAutoThreshold defaultSuggestThreshold [NormOp.addMap "a" "b"] "a" "b" (by decide)⟩

/-- C10: `similarity` lowercases both inputs itself, so its value is
invariant under lowercasing either argument; callers get
case-insensitive scoring without pre-lowercasing. -/
theorem similarity_case_invariant (a b : String) :
    similarity a b = similarity (pyLowerStr a) (pyLowerStr b) := by
  show ratioL (a.data.map lowerChar) (b.data.map lowerChar) =
    ratioL ((a.data.map lowerChar).map lowerChar) ((b.data.map lowerChar).map lowerChar)
  rw [List.map_map, List.map_map]
  rw [show lowerChar ∘ lowerChar = lowerChar from funext lowerChar_lowerChar]

/-- C7 (amended): the sentence-starter rejection of the company
validator is case-INsensitive — every pattern is matched under
`re.IGNORECASE`, so the rejection verdict is unchanged by lowercasing
the candidate string, and duplicate entries such as "The"/"the" are
redundant. -/
theorem starter_reject_case_insensitive (s : String) :
    starterReject (pyLowerStr s).data = starterReject s.data := by
  show starterReject (s.data.map lowerChar) = starterReject s.data
  unfold starterReject
  simp only [ciPrefixSpace_map_lower]

/-- C7 counterexample: "THE Company" is starter-rejected by the code
although it does not begin with any listed entry in its exact letter
case, refuting the claimed case-sensitive-per-entry matching. -/
theorem starter_reject_not_case_sensitive :
    starterReject "THE Company".data = true ∧
    starterRejectSpec "THE Company".data = false := by
  decide

/-- C8 (amended): `save_mappings` wraps the whole write in
`try/except`, so no exception ever propagates and the in-memory state
is untouched whatever the file system does; a successful call leaves
the full serialization on disk.  (The write itself is NOT atomic: see
the counterexample.) -/
theorem save_mappings_swallows_errors (n : Normalizer) (d : Option String) (o : SaveOutcome) :
    (saveMappings n d o).1 = n ∧ (saveMappings n d o).2.2 = false ∧
    (saveMappings n d SaveOutcome.ok).2.1 = some (serializeMappings n) := by
  refine ⟨?_, ?_, rfl⟩ <;> cases o <;> rfl

/-- C8 counterexample: `save_mappings` opens the target with mode 'w',
truncating it in place; a failure right after the open leaves an empty
file — the prior durable state is destroyed, and a reader observes a
partially-written (here: empty) file rather than either complete
version. -/
theorem save_mappings_not_atomic :
    (saveMappings (addMapping (initNormalizer defaultAutoThreshold defaultSuggestThreshold) "a" "b")
        (some "OLD") (SaveOutcome.failAfter 0)).2.1 ≠ some "OLD" ∧
    (saveMappings (addMapping (initNormalizer defaultAutoThreshold defaultSuggestThreshold) "a" "b")
        (some "OLD") (SaveOutcome.failAfter 0)).2.1 ≠
      (saveMappings (addMapping (initNormalizer defaultAutoThreshold defaultSuggestThreshold) "a" "b")
        (some "OLD") SaveOutcome.ok).2.1 := by
  decide

/-- C3 (amended): inputs that are empty or case-insensitively "n/a" or
"unknown" are answered with the class default value and zero mutation,
in all three entity classes.  (Whitespace-only input is NOT covered:
see the counterexample.) -/
theorem guard_inputs_return_default (n : Normalizer) (s : String)
    (h : s = "" ∨ pyLowerStr s = "n/a" ∨ pyLowerStr s = "unknown") :
    categoryNormalize n s = ("Other", n) ∧
    companyNormalize n s = ("Unknown Company", n) ∧
    templateNormalize n s = ("Other", n) := by
  have hg : guardMatch s := by
    rcases h with h | h | h
    · exact Or.inl h
    · exact Or.inr (Or.inl h)
    · exact Or.inr (Or.inr (Or.inl h))
  have hic : isInvalidCompany s = true := by
    unfold isInvalidCompany
    rw [if_pos hg]
  have hit : isInvalidTemplate s = true := by
    unfold isInvalidTemplate
    rw [if_pos hg]
  refine ⟨?_, ?_, ?_⟩
  · unfold categoryNormalize baseNormalize
    rw [if_pos hg]
  · unfold companyNormalize
    rw [if_pos hic]
  · unfold templateNormalize
    rw [if_pos hit]

theorem guard_inputs_return_default_witness :
    categoryNormalize (initNormalizer defaultAutoThreshold defaultSuggestThreshold) "N/A" =
      ("Other", initNormalizer defaultAutoThreshold defaultSuggestThreshold) ∧
    companyNormalize (initNormalizer defaultAutoThreshold defaultSuggestThreshold) "N/A" =
      ("Unknown Company", initNormalizer defaultAutoThreshold defaultSuggestThreshold) ∧
    templateNormalize (initNormalizer defaultAutoThreshold defaultSuggestThreshold) "N/A" =
      ("Other", initNormalizer defaultAutoThreshold defaultSuggestThreshold) :=
  guard_inputs_return_default (initNormalizer defaultAutoThreshold defaultSuggestThreshold) "N/A" (by decide)

/-- C3 counterexample: a whitespace-only input is truthy in Python and
is not in the guard tuple, so it falls through: on a fresh category
normalizer, `normalize(" ")` returns the cleaned empty string — not the
class default "Other" — and mutates the store by adding "" as a
brand-new standardized entity. -/
theorem whitespace_input_not_defaulted :
    categoryNormalize (initNormalizer defaultAutoThreshold defaultSuggestThreshold) " " =
      ("", { initNormalizer defaultAutoThreshold defaultSuggestThreshold with standardizedEntities := [""] }) ∧
    ("" : String) ≠ "Other" ∧
    { initNormalizer defaultAutoThreshold defaultSuggestThreshold with standardizedEntities := [""] } ≠
      initNormalizer defaultAutoThreshold defaultSuggestThreshold := by
  decide

/-- C4 (amended): membership in the `known_companies` allow-list makes
the company validator accept a string — but only past the filters that
run earlier: the guard and the exclude patterns are checked first, so
the allow-list only overrides the length and word-count filters.
"BluSky Restoration Contractors, LLC" passes all earlier filters and is
accepted verbatim. -/
theorem known_company_accepted_unless_excluded (s : String)
    (h1 : s ∈ knownCompanies) (h2 : ¬ guardMatch s)
    (h3 : companyExcludeMatches s = false) :
    isInvalidCompany s = false := by
  unfold isInvalidCompany
  rw [if_neg h2, h3]
  simp [h1]

theorem known_company_accepted_unless_excluded_witness :
    ("BluSky Restoration Contractors, LLC" ∈ knownCompanies ∧
     companyExcludeMatches "BluSky Restoration Contractors, LLC" = false) ∧
    isInvalidCompany "BluSky Restoration Contractors, LLC" = false :=
  ⟨⟨by decide, by decide⟩,
   known_company_accepted_unless_excluded _ (by decide) (by decide) (by decide)⟩

/-- C4 counterexample: "Comtel Systems Technology" is in the
allow-list, yet `is_invalid_company` rejects it: the exclude-pattern
scan runs before the allow-list test and the vocabulary pattern matches
the substring "system" case-insensitively.  The allow-list therefore
does NOT override all other rejection filters. -/
theorem allowlisted_company_rejected_by_vocab :
    "Comtel Systems Technology" ∈ knownCompanies ∧
    isInvalidCompany "Comtel Systems Technology" = true := by
  decide

/-- C5 (amended): for a string that passes the guard and is its own
cleaned form, normalize is read-only once resolved: an exact mapping
key returns its canonical value, and a member of the StandardizedSet is
returned unchanged (the mapping lookup taking precedence); in both
cases the state is returned untouched. -/
theorem resolved_normalize_idempotent (clean : String → String) (dflt : String)
    (n : Normalizer) (s c : String)
    (hg : ¬ guardMatch s) (hc : clean s = s) :
    (lookupStr n.mappings s = some c → baseNormalize clean dflt n s = (c, n)) ∧
    (lookupStr n.mappings s = none → s ∈ n.standardizedEntities →
      baseNormalize clean dflt n s = (s, n)) := by
  constructor
  · intro h
    unfold baseNormalize
    rw [if_neg hg]
    simp only [hc, h]
  · intro h hm
    unfold baseNormalize
    rw [if_neg hg]
    simp only [hc, h]
    rw [if_pos hm]

theorem resolved_normalize_idempotent_witness :
    lookupStr [("a", "b")] "a" = some "b" ∧
    baseNormalize pyStripStr "Other"
      { initNormalizer defaultAutoThreshold defaultSuggestThreshold with
        mappings := [("a", "b")], standardizedEntities := ["c"] } "a" =
      ("b",
       { initNormalizer defaultAutoThreshold defaultSuggestThreshold with
         mappings := [("a", "b")], standardizedEntities := ["c"] }) :=
  ⟨by decide,
   (resolved_normalize_idempotent pyStripStr "Other" _ "a" "b"
     (by decide) (by decide)).1 (by decide)⟩

/-- C5 counterexample: "Unknown" can enter the StandardizedSet through
the public interface (normalizing "Unknown " with a trailing blank),
yet `normalize("Unknown")` then answers the guard default "Other", not
the member itself — so membership in StandardizedSet alone does not
make normalize return the string unchanged. -/
theorem standardized_member_not_returned :
    "Unknown" ∈ (categoryNormalize
      (initNormalizer defaultAutoThreshold defaultSuggestThreshold)
      "Unknown ").2.standardizedEntities ∧
    (categoryNormalize (categoryNormalize
      (initNormalizer defaultAutoThreshold defaultSuggestThreshold)
      "Unknown ").2 "Unknown").1 = "Other" ∧
    ("Other" : String) ≠ "Unknown" := by
  decide

/-- C1 (amended): on a state whose StandardizedSet is exactly {E},
whose mapping values are all E, and for an input that passes the guard
and is not already resolved (its cleaned form neither a mapping key nor
standardized): when similarity(clean s, E) is at least the (default)
auto-threshold, normalize returns E, adds the mapping clean s → E and
keeps E in the StandardizedSet; when the best score is strictly below
the (default) suggest-threshold, normalize adds clean s as a brand-new
standardized entity, returns it unchanged, and leaves the mapping table
and pending review untouched. -/
theorem normalize_threshold_boundaries (clean : String → String) (dflt : String)
    (n : Normalizer) (s E : String)
    (hauto : n.autoThreshold = defaultAutoThreshold)
    (hsug : n.suggestThreshold = defaultSuggestThreshold)
    (hg : ¬ guardMatch s)
    (hnomap : lookupStr n.mappings (clean s) = none)
    (hnostd : clean s ∉ n.standardizedEntities)
    (hstd : n.standardizedEntities = [E])
    (hvals : ∀ v ∈ n.mappings.map Prod.snd, v = E) :
    (similarity (clean s) E ≥ defaultAutoThreshold →
      baseNormalize clean dflt n s = (E, addMapping n (clean s) E) ∧
      lookupStr (addMapping n (clean s) E).mappings (clean s) = some E ∧
      E ∈ (addMapping n (clean s) E).standardizedEntities) ∧
    ((findBestMatch n (clean s)).2 < defaultSuggestThreshold →
      baseNormalize clean dflt n s = (clean s, addStandardizedEntity n (clean s)) ∧
      clean s ∈ (addStandardizedEntity n (clean s)).standardizedEntities ∧
      (addStandardizedEntity n (clean s)).mappings = n.mappings ∧
      (addStandardizedEntity n (clean s)).pendingReview = n.pendingReview) := by
  have hb := baseNormalize_fuzzy clean dflt n s hg hnomap hnostd
  constructor
  · intro hA
    have hpos : 0 < similarity (clean s) E :=
      lt_of_lt_of_le (by decide) hA
    have hfbm := findBestMatch_single n (clean s) E hstd hvals hpos
    have hge : (findBestMatch n (clean s)).2 ≥ n.autoThreshold := by
      rw [hfbm, hauto]
      exact hA
    refine ⟨?_, lookup_dictInsert_self _ _ _, mem_setAdd_self _ _⟩
    rw [hb, if_pos hge, hfbm]
  · intro hB
    have h1 : ¬ ((findBestMatch n (clean s)).2 ≥ n.autoThreshold) := by
      rw [hauto]
      exact not_le.mpr (lt_trans hB (by decide))
    have h2 : ¬ ((findBestMatch n (clean s)).2 ≥ n.suggestThreshold) := by
      rw [hsug]
      exact not_le.mpr hB
    rw [hb, if_neg h1, if_neg h2]
    exact ⟨rfl, mem_setAdd_self _ _, rfl, rfl⟩

theorem normalize_threshold_boundaries_witness :
    baseNormalize pyStripStr "Other"
      { initNormalizer defaultAutoThreshold defaultSuggestThreshold with
        standardizedEntities := ["abcdefghi"] } "abcdefghij" =
      ("abcdefghi",
       addMapping
         { initNormalizer defaultAutoThreshold defaultSuggestThreshold with
           standardizedEntities := ["abcdefghi"] }
         (pyStripStr "abcdefghij") "abcdefghi") ∧
    lookupStr (addMapping
         { initNormalizer defaultAutoThreshold defaultSuggestThreshold with
           standardizedEntities := ["abcdefghi"] }
         (pyStripStr "abcdefghij") "abcdefghi").mappings
      (pyStripStr "abcdefghij") = some "abcdefghi" ∧
    "abcdefghi" ∈ (addMapping
         { initNormalizer defaultAutoThreshold defaultSuggestThreshold with
           standardizedEntities := ["abcdefghi"] }
         (pyStripStr "abcdefghij") "abcdefghi").standardizedEntities :=
  (normalize_threshold_boundaries pyStripStr "Other" _ "abcdefghij" "abcdefghi"
    rfl rfl (by decide) (by decide) (by decide) rfl (by simp [initNormalizer])).1 (by decide)

/-- C1 counterexample: with StandardizedSet exactly {"Acme"} and input
"Acme", similarity(clean s, E) = 1 ≥ 0.9, yet normalize answers at the
standardized-membership check and adds NO mapping — refuting the
claim's unconditional "adds the mapping (clean(s) → E)" part. -/
theorem auto_threshold_no_mapping_counterexample :
    similarity (pyStripStr "Acme") "Acme" ≥ defaultAutoThreshold ∧
    (categoryNormalize
      { initNormalizer defaultAutoThreshold defaultSuggestThreshold with
        standardizedEntities := ["Acme"] } "Acme").1 = "Acme" ∧
    (categoryNormalize
      { initNormalizer defaultAutoThreshold defaultSuggestThreshold with
        standardizedEntities := ["Acme"] } "Acme").2.mappings = [] := by
  decide

/-- C2 (amended): for an input that passes the guard and is not already
resolved, a best score in [suggest, auto) makes normalize record the
suggestion in PendingReview and return it while leaving the mapping
table and the standardized set unchanged; a following approve on the
cleaned variant commits the mapping and clears the pending entry; and
approve on any variant with no pending entry mutates nothing. -/
theorem suggest_tier_and_approve (clean : String → String) (dflt : String)
    (n : Normalizer) (s : String)
    (hg : ¬ guardMatch s)
    (hnomap : lookupStr n.mappings (clean s) = none)
    (hnostd : clean s ∉ n.standardizedEntities)
    (hsug : (findBestMatch n (clean s)).2 ≥ n.suggestThreshold)
    (hauto : (findBestMatch n (clean s)).2 < n.autoThreshold) :
    (baseNormalize clean dflt n s).1 = (findBestMatch n (clean s)).1 ∧
    (baseNormalize clean dflt n s).2.mappings = n.mappings ∧
    (baseNormalize clean dflt n s).2.standardizedEntities = n.standardizedEntities ∧
    lookupStr (baseNormalize clean dflt n s).2.pendingReview (clean s) =
      some (findBestMatch n (clean s)) ∧
    lookupStr (approveMapping (baseNormalize clean dflt n s).2 (clean s) none).mappings
      (clean s) = some (findBestMatch n (clean s)).1 ∧
    lookupStr (approveMapping (baseNormalize clean dflt n s).2 (clean s) none).pendingReview
      (clean s) = none ∧
    (∀ (m : Normalizer) (e : String) (o : Option String),
      lookupStr m.pendingReview e = none → approveMapping m e o = m) := by
  have hb := baseNormalize_fuzzy clean dflt n s hg hnomap hnostd
  have h1 : ¬ ((findBestMatch n (clean s)).2 ≥ n.autoThreshold) := not_le.mpr hauto
  rw [hb, if_neg h1, if_pos hsug]
  refine ⟨rfl, rfl, rfl, lookup_dictInsert_self _ _ _, ?_, ?_, ?_⟩
  · unfold approveMapping
    dsimp only
    rw [lookup_dictInsert_self]
    exact lookup_dictInsert_self _ _ _
  · unfold approveMapping
    dsimp only
    rw [lookup_dictInsert_self]
    exact lookup_filter_ne _ _
  · intro m e o h
    unfold approveMapping
    rw [h]

theorem suggest_tier_and_approve_witness :
    (baseNormalize pyStripStr "Other"
      { initNormalizer defaultAutoThreshold defaultSuggestThreshold with
        standardizedEntities := ["abcdX"] } "abcde").1 =
      (findBestMatch
        { initNormalizer defaultAutoThreshold defaultSuggestThreshold with
          standardizedEntities := ["abcdX"] } (pyStripStr "abcde")).1 ∧
    (baseNormalize pyStripStr "Other"
      { initNormalizer defaultAutoThreshold defaultSuggestThreshold with
        standardizedEntities := ["abcdX"] } "abcde").2.mappings = [] ∧
    (baseNormalize pyStripStr "Other"
      { initNormalizer defaultAutoThreshold defaultSuggestThreshold with
        standardizedEntities := ["abcdX"] } "abcde").2.standardizedEntities = ["abcdX"] ∧
    lookupStr (baseNormalize pyStripStr "Other"
      { initNormalizer defaultAutoThreshold defaultSuggestThreshold with
        standardizedEntities := ["abcdX"] } "abcde").2.pendingReview (pyStripStr "abcde") =
      some (findBestMatch
        { initNormalizer defaultAutoThreshold defaultSuggestThreshold with
          standardizedEntities := ["abcdX"] } (pyStripStr "abcde")) ∧
    lookupStr (approveMapping (baseNormalize pyStripStr "Other"
      { initNormalizer defaultAutoThreshold defaultSuggestThreshold with
        standardizedEntities := ["abcdX"] } "abcde").2 (pyStripStr "abcde") none).mappings
      (pyStripStr "abcde") =
      some (findBestMatch
        { initNormalizer defaultAutoThreshold defaultSuggestThreshold with
          standardizedEntities := ["abcdX"] } (pyStripStr "abcde")).1 ∧
    lookupStr (approveMapping (baseNormalize pyStripStr "Other"
      { initNormalizer defaultAutoThreshold defaultSuggestThreshold with
        standardizedEntities := ["abcdX"] } "abcde").2 (pyStripStr "abcde") none).pendingReview
      (pyStripStr "abcde") = none ∧
    (∀ (m : Normalizer) (e : String) (o : Option String),
      lookupStr m.pendingReview e = none → approveMapping m e o = m) :=
  suggest_tier_and_approve pyStripStr "Other" _ "abcde"
    (by decide) (by decide) (by decide) (by decide) (by decide)

/-- C2 counterexample: when clean(s) is already an exact mapping key,
the best fuzzy score can lie in [suggest, auto) while normalize answers
from the mapping table: no PendingReview entry is inserted and the
state is completely unchanged, refuting the claim's "for every state"
quantification. -/
theorem suggest_tier_counterexample :
    pyStripStr "abcde" = "abcde" ∧
    (findBestMatch
      { initNormalizer defaultAutoThreshold defaultSuggestThreshold with
        mappings := [("abcde", "abcdX")], standardizedEntities := ["abcdX"] }
      "abcde").2 ≥ defaultSuggestThreshold ∧
    (findBestMatch
      { initNormalizer defaultAutoThreshold defaultSuggestThreshold with
        mappings := [("abcde", "abcdX")], standardizedEntities := ["abcdX"] }
      "abcde").2 < defaultAutoThreshold ∧
    categoryNormalize
      { initNormalizer defaultAutoThreshold defaultSuggestThreshold with
        mappings := [("abcde", "abcdX")], standardizedEntities := ["abcdX"] } "abcde" =
      ("abcdX",
       { initNormalizer defaultAutoThreshold defaultSuggestThreshold with
         mappings := [("abcde", "abcdX")], standardizedEntities := ["abcdX"] }) := by
  decide

end EmailAnalyzer
